import Mathlib

/-!
# Verification of the `Analise_Semantica` inference engine

Shallow embedding of `src/analyzer.py` (pandas-based data-profiling heuristics)
and of the orchestration in `src/main.py`.

Modelling conventions:
* A pandas `Series` cell is `Option Val` (`none` models NaN/null).
* A `DataFrame` is a row count plus a list of named, typed columns, all of the
  row count's length, with pairwise-distinct column names (a pandas invariant).
* Python floats are modelled as `ℚ`; `round(x, k)` is modelled exactly as
  round-half-to-even on rationals (`pyRound`).
* Python string operations (`lower`, `endswith`, `in`) are modelled on the
  character list underlying `String`.
-/

set_option autoImplicit false

namespace Analise

/-- A scalar cell value: string, integer, float (as `ℚ`), timestamp
(as an integer day number) or boolean. -/
inductive Val where
  | s (t : String)
  | i (n : ℤ)
  | q (x : ℚ)
  | t (d : ℤ)
  | b (v : Bool)
  deriving DecidableEq

/-- A pandas dtype tag, as far as the analyzer inspects it. -/
inductive Dtype where
  | int64
  | float64
  | object
  | datetime64
  | boolDt
  deriving DecidableEq

/-- `str(dtype)` for the dtypes above. -/
def dtypeStr : Dtype → String
  | .int64 => "int64"
  | .float64 => "float64"
  | .object => "object"
  | .datetime64 => "datetime64[ns]"
  | .boolDt => "bool"

/-- `str(value)`, used when the analyzer stringifies sample values. -/
def valToStr : Val → String
  | .s t => t
  | .i n => toString n
  | .q x => toString x.num ++ "/" ++ toString x.den
  | .t d => toString d
  | .b v => toString v

/-- Python `s.lower()` (ASCII, which covers every name the analyzer tests). -/
def strLower (s : String) : String := String.mk (s.data.map Char.toLower)

/-- Python `s.endswith(suffix)`. -/
def strEndsWith (s suffix : String) : Bool := decide (suffix.data <:+ s.data)

/-- Python `s.startswith(p)`. -/
def strStartsWith (s p : String) : Bool := decide (p.data <+: s.data)

/-- Python `pat in s` (substring containment). -/
def strContains (s pat : String) : Bool := decide (pat.data <:+: s.data)

/-- Python `round` to the nearest integer, ties to even (banker's rounding). -/
def pyRound (x : ℚ) : ℤ :=
  let f := ⌊x⌋
  let r := x - f
  if r < 1 / 2 then f
  else if 1 / 2 < r then f + 1
  else if f % 2 = 0 then f else f + 1

/-- Python `round(x, 2)`. -/
def round2 (x : ℚ) : ℚ := (pyRound (x * 100) : ℚ) / 100

/-- Python `round(x, 3)`. -/
def round3 (x : ℚ) : ℚ := (pyRound (x * 1000) : ℚ) / 1000

/-- One step of the distinct-value accumulation: keep `x` only on its
first occurrence. -/
def uniqStep {α : Type} [DecidableEq α] (acc : List α) (x : α) : List α :=
  if x ∈ acc then acc else acc ++ [x]

/-- Distinct elements of a list in first-occurrence order
(pandas `Series.unique`). -/
def uniqList {α : Type} [DecidableEq α] (l : List α) : List α :=
  l.foldl uniqStep []

theorem nodup_foldl_uniqStep {α : Type} [DecidableEq α] :
    ∀ (l acc : List α), acc.Nodup → (l.foldl uniqStep acc).Nodup := by
  intro l
  induction l with
  | nil => intro acc h; simpa using h
  | cons x xs ih =>
    intro acc hacc
    rw [List.foldl_cons]
    apply ih
    unfold uniqStep
    by_cases hx : x ∈ acc
    · simpa [hx] using hacc
    · simp only [hx, if_false]
      rw [List.nodup_append]
      exact ⟨hacc, List.nodup_singleton x, by simpa using hx⟩

theorem nodup_uniqList {α : Type} [DecidableEq α] (l : List α) :
    (uniqList l).Nodup :=
  nodup_foldl_uniqStep l [] List.nodup_nil

theorem foldl_uniqStep_eq_append {α : Type} [DecidableEq α] :
    ∀ (l acc : List α), l.Nodup → (∀ x ∈ l, x ∉ acc) →
      l.foldl uniqStep acc = acc ++ l := by
  intro l
  induction l with
  | nil => intro acc _ _; simp
  | cons x xs ih =>
    intro acc hnd hdisj
    rcases List.nodup_cons.mp hnd with ⟨hx, hxs⟩
    have hxacc : x ∉ acc := hdisj x (List.mem_cons_self x xs)
    have hstep : uniqStep acc x = acc ++ [x] := if_neg hxacc
    rw [List.foldl_cons, hstep, ih (acc ++ [x]) hxs (by
      intro y hy
      rw [List.mem_append]
      rintro (h | h)
      · exact hdisj y (List.mem_cons_of_mem x hy) h
      · rcases List.mem_singleton.mp h with rfl
        exact hx hy)]
    simp

theorem uniqList_eq_self {α : Type} [DecidableEq α] {l : List α}
    (h : l.Nodup) : uniqList l = l := by
  rw [uniqList, foldl_uniqStep_eq_append l [] h (by simp)]
  simp

-- ----------------------- Series (column) primitives -----------------------

/-- `series.dropna()`: the non-null values, in order. -/
def dropna (l : List (Option Val)) : List Val := l.filterMap id

/-- `series.isnull().any()`. -/
def anyNull (l : List (Option Val)) : Bool := l.any (fun v => v.isNone)

/-- `series.isnull().all()`. -/
def allNull (l : List (Option Val)) : Bool := l.all (fun v => v.isNone)

/-- `series.isnull().sum()`. -/
def nullCount (l : List (Option Val)) : ℕ := l.countP (fun v => v.isNone)

/-- `series.nunique()` (pandas default `dropna=True`). -/
def nunique (l : List (Option Val)) : ℕ := (uniqList (dropna l)).length

/-- `series.is_unique`, which pandas computes as
`series.nunique(dropna=False) == len(series)`; all nulls count as one
value, so this is exactly "no duplicate cells". -/
def isUniqueSeries (l : List (Option Val)) : Bool :=
  (uniqList l).length == l.length

-- ----------------------- DataFrame -----------------------

/-- One named, typed column of a table. -/
structure Col where
  name : String
  dtype : Dtype
  values : List (Option Val)
  deriving DecidableEq

/-- A pandas DataFrame: a row count and the ordered columns, every column of
the row count's length and with pairwise-distinct names. -/
structure DataFrame where
  nrows : ℕ
  cols : List Col
  len_eq : ∀ c ∈ cols, c.values.length = nrows
  names_nodup : (cols.map Col.name).Nodup

/-- `df.columns`, as a list of names. -/
def DataFrame.colNames (df : DataFrame) : List String := df.cols.map Col.name

/-- `df[name]`: the first (hence, by `names_nodup`, the only) column called
`name`. -/
def DataFrame.col? (df : DataFrame) (name : String) : Option Col :=
  df.cols.find? (fun c => c.name == name)

-- ----------------------- Key Detector (analyzer.py 3-11) -----------------------

/-- `find_primary_keys(df)`: columns that are unique and have no null
(`df[col].is_unique and not df[col].isnull().any()`). -/
def find_primary_keys (df : DataFrame) : List String :=
  (df.cols.filter (fun c => isUniqueSeries c.values && !(anyNull c.values))).map Col.name

/-- `find_foreign_keys(df)`: columns whose name ends with `'_id'`. -/
def find_foreign_keys (df : DataFrame) : List String :=
  (df.cols.filter (fun c => strEndsWith c.name "_id")).map Col.name

-- ----------------------- Dead columns (analyzer.py 138-139) -----------------------

/-- `detect_dead_column(series)`: all-null, or at most one distinct
non-null value. -/
def detect_dead_column (l : List (Option Val)) : Bool :=
  allNull l || decide (nunique l ≤ 1)

-- ----------------------- Business fields (analyzer.py 13-34) -----------------------

/-- The per-column metrics stored for a business-field candidate. -/
structure BizCand where
  unique_pct : ℚ
  null_pct : ℚ
  sample : List String
  deriving DecidableEq

/-- The `nunique_ratio` of `find_business_fields`:
`df[col].nunique() / n if n else 0`. -/
def nuniqueRatio (df : DataFrame) (c : Col) : ℚ :=
  if df.nrows = 0 then 0 else (nunique c.values : ℚ) / (df.nrows : ℚ)

/-- The `null_ratio` of `find_business_fields`:
`df[col].isnull().sum() / n if n else 0`. -/
def nullRatio (df : DataFrame) (c : Col) : ℚ :=
  if df.nrows = 0 then 0 else (nullCount c.values : ℚ) / (df.nrows : ℚ)

/-- `list(df[col].dropna().astype(str).unique()[:5])`. -/
def sampleValues (c : Col) : List String :=
  (uniqList ((dropna c.values).map valToStr)).take 5

/-- `find_business_fields(df, threshold_unique, threshold_null)`: the
candidate dict, in column order, keyed by column name. -/
def find_business_fields (df : DataFrame) (thU thN : ℚ) : List (String × BizCand) :=
  df.cols.flatMap (fun c =>
    let nq := nuniqueRatio df c
    let nl := nullRatio df c
    if nq < thU ∧ nl < thN then
      [(c.name, ⟨nq, nl, sampleValues c⟩)]
    else [])

-- ----------------------- Categorization (analyzer.py 67-99) -----------------------

/-- The literal token list of the `temporal` rule in `categorize_column`. -/
def temporalTokens : List String :=
  ["date", "data", "time", "inicio", "inicio_", "fim", "end", "updated", "created"]

/-- The literal token list of the `monetaria` rule in `categorize_column`
(note: `'_total'`, not `'total'`). -/
def monetaryTokens : List String :=
  ["valor", "value", "amount", "preco", "price", "_total"]

/-- The `bool_like` literal set of `categorize_boolean`. -/
def boolLike : List Val :=
  [.i 0, .i 1, .b true, .b false, .s "0", .s "1",
   .s "true", .s "false", .s "True", .s "False"]

/-- `categorize_boolean(series, sample_name)`. -/
def categorize_boolean (series : Option (List (Option Val))) (sampleName : String) : Bool :=
  (sampleName ≠ "" &&
    (let name := strLower sampleName
     strStartsWith name "is_" || strEndsWith name "_flag" ||
       name == "ativo" || name == "active" || name == "valid")) ||
  (match series with
   | some s => (uniqList (dropna s)).all (fun v => boolLike.contains v)
   | none => false)

/-- `categorize_column(col_name, dtype)`: the priority-ordered rule cascade. -/
def categorize_column (colName : String) (dtype : Dtype) : String :=
  let name := strLower colName
  let strDtype := dtypeStr dtype
  if strEndsWith name "_id" then "relacional"
  else if strEndsWith name "_at" || temporalTokens.any (fun tok => strContains name tok) then
    "temporal"
  else if name == "ativo" || name == "active" || categorize_boolean none name then
    "boolean"
  else if monetaryTokens.any (fun tok => strContains name tok) then "monetaria"
  else if strContains name "status" || strContains name "validation" || strContains name "check" then
    "status"
  else if strStartsWith strDtype "int" || strStartsWith strDtype "float" then "numerica"
  else "categorica"

-- ------------- Multivariate rules (analyzer.py 187-217) -------------

/-- One conditional rule. The source stores the formatted strings
`"{cond} = {val}"` and `"{target} != null"`; we keep the three parts
structurally, plus the rounded `violation_pct`. -/
structure MvRule where
  cond : String
  val : Option Val
  target : String
  violation_pct : ℚ
  deriving DecidableEq

/-- The condition-column prefilter of `detect_multivariate_rules`:
columns with `df[c].nunique() <= max_cardinality`. -/
def mvCondCols (df : DataFrame) (maxCardinality : ℕ) : List Col :=
  df.cols.filter (fun c => decide (nunique c.values ≤ maxCardinality))

/-- The target columns of `detect_multivariate_rules`: all columns not
in the condition list (the source compares by column name). -/
def mvTargetCols (df : DataFrame) (maxCardinality : ℕ) : List Col :=
  df.cols.filter (fun c =>
    !((mvCondCols df maxCardinality).map Col.name).contains c.name)

/-- `df[[cond, target]].dropna(subset=[cond])`: the (condition, target) cell
pairs of the rows whose condition cell is non-null. -/
def mvSubset (cond target : Col) : List (Option Val × Option Val) :=
  (cond.values.zip target.values).filter (fun p => p.1.isSome)

/-- `subset[subset[cond] == val]`: the subset rows whose condition cell is
`val`. -/
def mvCondRows (cond target : Col) (val : Option Val) :
    List (Option Val × Option Val) :=
  (mvSubset cond target).filter (fun p => p.1 == val)

/-- `cond_rows[target].isnull().mean()`. -/
def mvNullPct (cond target : Col) (val : Option Val) : ℚ :=
  (((mvCondRows cond target val).filter (fun p => p.2.isNone)).length : ℚ) /
    ((mvCondRows cond target val).length : ℚ)

/-- `detect_multivariate_rules(df, max_cardinality, max_violation)`. -/
def detect_multivariate_rules (df : DataFrame) (maxCardinality : ℕ)
    (maxViolation : ℚ) : List MvRule :=
  if df.nrows = 0 then []
  else
    (mvCondCols df maxCardinality).flatMap (fun cond =>
      (mvTargetCols df maxCardinality).flatMap (fun target =>
        if (mvSubset cond target).isEmpty then []
        else
          (uniqList ((mvSubset cond target).map Prod.fst)).flatMap (fun val =>
            if (mvCondRows cond target val).isEmpty then []
            else
              if mvNullPct cond target val ≤ maxViolation then
                [⟨cond.name, val, target.name,
                  round3 (mvNullPct cond target val)⟩]
              else [])))

-- ------------- Implicit FK inference (analyzer.py 145-181) -------------

/-- An explicit relationship record, as assembled by `run_analysis`
(`main.py` 129-139). -/
structure Rel where
  from_table : String
  fk : String
  to_table : String
  pk : String
  deriving DecidableEq

/-- An implicit relationship suggestion (`analyzer.py` 174-180). -/
structure Suggestion where
  from_table : String
  fk : String
  to_table : String
  pk : String
  confidence : ℚ
  deriving DecidableEq

/-- The overlap ratio `len(overlap) / min(len(fk_values), len(pk_values))`. -/
def overlapRatio (fkVals pkVals : Finset Val) : ℚ :=
  ((fkVals ∩ pkVals).card : ℚ) / ((min fkVals.card pkVals.card : ℕ) : ℚ)

/-- The candidate `(tbl_to, pk, ratio)` triples scanned by the inner loops of
`infer_implicit_fks` for one FK column, in iteration order. -/
def fkCandRatios (tables : List (String × DataFrame)) (tblFrom : String)
    (fkVals : Finset Val) : List (String × String × ℚ) :=
  tables.flatMap (fun tto =>
    if tblFrom = tto.1 then []
    else
      (find_primary_keys tto.2).flatMap (fun pk =>
        match tto.2.col? pk with
        | none => []
        | some pcol =>
          let pkVals := (dropna pcol.values).toFinset
          if pkVals = ∅ then []
          else [(tto.1, pk, overlapRatio fkVals pkVals)]))

/-- The `best_match`/`best_ratio` fold: start from `(None, 0)` and replace the
best on a strictly larger ratio. -/
def bestMatch (cands : List (String × String × ℚ)) : Option (String × String) × ℚ :=
  cands.foldl
    (fun acc c => if acc.2 < c.2.2 then (some (c.1, c.2.1), c.2.2) else acc)
    (none, 0)

/-- `infer_implicit_fks(tables_dfs, existing_rels, min_overlap_ratio)`. -/
def infer_implicit_fks (tables : List (String × DataFrame)) (existingRels : List Rel)
    (minOverlapRatio : ℚ) : List Suggestion :=
  tables.flatMap (fun tfrom =>
    (tfrom.2.cols.filter (fun c => strEndsWith c.name "_id")).flatMap (fun col =>
      if existingRels.any (fun rel =>
          rel.from_table == tfrom.1 && rel.fk == col.name) then []
      else
        let fkVals := (dropna col.values).toFinset
        if fkVals = ∅ then []
        else
          let best := bestMatch (fkCandRatios tables tfrom.1 fkVals)
          match best.1 with
          | none => []
          | some bm =>
            if minOverlapRatio ≤ best.2 then
              [⟨tfrom.1, col.name, bm.1, bm.2, round2 best.2⟩]
            else []))

-- ------------- Derived fields (analyzer.py 223-256) -------------

/-- A derived-field suggestion. The source also stores the rounded Pearson
correlation; the correlation itself is irrational in general, so we keep its
square (`corrSq = cov² / (var x · var y)`), which determines the
`abs(corr) >= corr_threshold` test exactly. -/
structure DerivedSuggestion where
  field : String
  dateB : String
  dateA : String
  corrSq : ℚ
  deriving DecidableEq

/-- The numeric value of a cell in an `int64`/`float64` column. -/
def valToRat : Val → ℚ
  | .i n => (n : ℚ)
  | .q x => x
  | .s _ => 0
  | .t d => (d : ℚ)
  | .b v => if v then 1 else 0

/-- The day number of a cell in a `datetime64` column. -/
def valToDay : Val → ℤ
  | .t d => d
  | .i n => n
  | _ => 0

/-- The `date_cols` of `detect_derived_fields` and `detect_temporal_rules`:
columns whose category is `'temporal'`. -/
def dateCols (df : DataFrame) : List Col :=
  df.cols.filter (fun c => categorize_column c.name c.dtype == "temporal")

/-- The `numeric_cols`: columns whose dtype kind is `i` or `f`. -/
def numericCols (df : DataFrame) : List Col :=
  df.cols.filter (fun c => c.dtype == Dtype.int64 || c.dtype == Dtype.float64)

/-- The ordered pairs scanned by `for i ...: for j in range(i+1, ...)`. -/
def colPairs : List Col → List (Col × Col)
  | [] => []
  | x :: xs => xs.map (fun y => (x, y)) ++ colPairs xs

/-- The aligned sample `pd.concat([y, diff], axis=1).dropna()`: row-indexed
alignment keeps exactly the rows where the numeric column and both date
columns are non-null; the second component is `(b - a).dt.days`. -/
def alignedPairs (num a b : Col) : List (ℚ × ℤ) :=
  ((num.values.zip (a.values.zip b.values)).filterMap (fun p =>
    match p.1, p.2.1, p.2.2 with
    | some y, some va, some vb => some (valToRat y, valToDay vb - valToDay va)
    | _, _, _ => none))

/-- `n * Σ xᵢ² - (Σ xᵢ)²`, i.e. `n²` times the variance of `l`. -/
def scaledVar (l : List ℚ) : ℚ :=
  (l.length : ℚ) * (l.map (fun x => x * x)).sum - l.sum * l.sum

/-- `n * Σ xᵢyᵢ - Σ xᵢ · Σ yᵢ`, i.e. `n²` times the covariance. -/
def scaledCov (l : List (ℚ × ℚ)) : ℚ :=
  (l.length : ℚ) * (l.map (fun p => p.1 * p.2)).sum -
    (l.map Prod.fst).sum * (l.map Prod.snd).sum

/-- `pd.notnull(corr)`: the Pearson correlation of the aligned sample is
defined, i.e. neither series has zero variance. -/
def corrDefined (l : List (ℚ × ℚ)) : Prop :=
  scaledVar (l.map Prod.fst) ≠ 0 ∧ scaledVar (l.map Prod.snd) ≠ 0

instance (l : List (ℚ × ℚ)) : Decidable (corrDefined l) := by
  unfold corrDefined
  infer_instance

/-- `pd.notnull(corr) and abs(corr) >= corr_threshold`, stated without square
roots: `corr² = cov² / (var x · var y)`, so for a threshold `t ≥ 0` the test
is `cov² ≥ t² · var x · var y` together with definedness. -/
def corrPasses (l : List (ℚ × ℚ)) (t : ℚ) : Prop :=
  corrDefined l ∧
    t ^ 2 * (scaledVar (l.map Prod.fst) * scaledVar (l.map Prod.snd)) ≤
      scaledCov l ^ 2

instance (l : List (ℚ × ℚ)) (t : ℚ) : Decidable (corrPasses l t) := by
  unfold corrPasses
  infer_instance

/-- `corr ** 2` of the aligned sample (0 if undefined; only stored, never
tested, when undefined). -/
def corrSqVal (l : List (ℚ × ℚ)) : ℚ :=
  scaledCov l ^ 2 / (scaledVar (l.map Prod.fst) * scaledVar (l.map Prod.snd))

/-- The aligned sample as a rational pair list (`dt.days` values cast). -/
def alignedQ (num a b : Col) : List (ℚ × ℚ) :=
  (alignedPairs num a b).map (fun p => (p.1, (p.2 : ℚ)))

/-- `detect_derived_fields(df, corr_threshold)`. -/
def detect_derived_fields (df : DataFrame) (corrThreshold : ℚ) :
    List DerivedSuggestion :=
  if (dateCols df).length < 2 then []
  else
    (numericCols df).flatMap (fun num =>
      if allNull num.values then []
      else
        (colPairs (dateCols df)).flatMap (fun ab =>
          if ab.1.dtype == Dtype.datetime64 && ab.2.dtype == Dtype.datetime64 then
            if (alignedQ num ab.1 ab.2).length < 10 then []
            else if corrPasses (alignedQ num ab.1 ab.2) corrThreshold then
              [⟨num.name, ab.2.name, ab.1.name, corrSqVal (alignedQ num ab.1 ab.2)⟩]
            else []
          else []))

-- ------------- Workflow detection (analyzer.py 262-295) -------------

/-- Constructor rank, used to order values of different kinds (Python would
raise on such comparisons; they never happen in a well-typed column). -/
def valRank : Val → ℕ
  | .s _ => 0
  | .i _ => 1
  | .q _ => 2
  | .t _ => 3
  | .b _ => 4

/-- A total `≤` test on cell values, agreeing with the Python comparison on
same-kind values. -/
def valLE : Val → Val → Bool
  | .s a, .s b => decide (a ≤ b)
  | .i a, .i b => decide (a ≤ b)
  | .q a, .q b => decide (a ≤ b)
  | .t a, .t b => decide (a ≤ b)
  | .b a, .b b => !a || b
  | x, y => decide (valRank x ≤ valRank y)

/-- Insert into a sorted list, before the first element that is not
strictly smaller (so the sort below is stable). -/
def insertSorted {α : Type} (le : α → α → Bool) (x : α) : List α → List α
  | [] => [x]
  | y :: ys => if le x y then x :: y :: ys else y :: insertSorted le x ys

/-- Stable insertion sort, modelling `sort_values`/`sorted`. -/
def insSort {α : Type} (le : α → α → Bool) : List α → List α
  | [] => []
  | x :: xs => insertSorted le x (insSort le xs)

/-- One row surviving `df.dropna(subset=[status_col, timestamp_col])`, in
original order, used when an `invoice_id` column exists: status cell,
timestamp cell, and that row's (label-aligned) `invoice_id` cell — pandas
`groupby` on a column silently drops rows whose key is null. -/
structure WfRow where
  st : Val
  time : Val
  key : Option Val
  deriving DecidableEq

/-- The kept rows when grouping by the `invoice_id` column (label-based
grouping: no length hazard even when rows were dropped). -/
def wfRowsInv (df : DataFrame) (statusCol tsCol inv : Col) : List WfRow :=
  (List.range df.nrows).filterMap (fun i =>
    match statusCol.values.getD i none, tsCol.values.getD i none with
    | some s, some t => some ⟨s, t, inv.values.getD i none⟩
    | _, _ => none)

/-- The kept `(status, timestamp)` pairs (the rows of
`df.dropna(subset=[status_col, timestamp_col])`) when no `invoice_id`
column exists. -/
def wfKeptPairs (df : DataFrame) (statusCol tsCol : Col) : List (Val × Val) :=
  (List.range df.nrows).filterMap (fun i =>
    match statusCol.values.getD i none, tsCol.values.getD i none with
    | some s, some t => some (s, t)
    | _, _ => none)

/-- The adjacent-pair walk of one group: record every consecutive pair of
distinct statuses (`if prev is not None and prev != st`). -/
def walkTrans : List Val → List (Val × Val)
  | [] => []
  | [_] => []
  | a :: b :: rest => (if a = b then [] else [(a, b)]) ++ walkTrans (b :: rest)

/-- The result dict of `detect_workflow` (the transition set is a Python
`set`, hence a `Finset`). -/
structure WorkflowModel where
  status_col : String
  states : List Val
  transitions : Finset (Val × Val)
  deriving DecidableEq

deriving instance DecidableEq for Except

/-- The transition set when an `invoice_id` column exists: sort the kept
rows by timestamp (stably), group by the non-null `invoice_id` cells, and
walk each group's time-ordered status sequence. -/
def wfTransByInvoice (df : DataFrame) (statusCol tsCol inv : Col) :
    Finset (Val × Val) :=
  let rows := insSort (fun (r₁ r₂ : WfRow) => valLE r₁.time r₂.time)
    (wfRowsInv df statusCol tsCol inv)
  let keys := uniqList (rows.filterMap (fun (r : WfRow) => r.key))
  (keys.flatMap (fun k =>
    walkTrans ((rows.filter (fun (r : WfRow) => r.key == some k)).map
      (fun (r : WfRow) => r.st)))).toFinset

/-- The transition set when no `invoice_id` column exists and no row was
dropped: pandas uses the ORIGINAL `df.index` (a `RangeIndex` for these
CSV-loaded frames) as an array-like grouper, assigning its values to the
sorted frame POSITIONALLY, so row `j` of the sorted frame gets key `j`
and every group is a singleton. -/
def wfTransByIndex (df : DataFrame) (statusCol tsCol : Col) :
    Finset (Val × Val) :=
  let rows := (insSort (fun (p₁ p₂ : Val × Val) => valLE p₁.2 p₂.2)
    (wfKeptPairs df statusCol tsCol)).enum
  let keys := uniqList (rows.map Prod.fst)
  (keys.flatMap (fun k =>
    walkTrans ((rows.filter (fun r => r.1 == k)).map
      (fun r => r.2.1)))).toFinset

/-- `detect_workflow(df, status_col_candidates, timestamp_col)`.

The result is `Except`-valued because the source can raise: when no
`invoice_id` column exists, `analyzer.py:283` passes the ORIGINAL
`df.index` as an array-like grouper for `df_sorted`, and if
`dropna(subset=[status_col, timestamp_col])` removed any row the grouper
length no longer matches the frame, so pandas raises
`ValueError("Grouper and axis must be same length")` — modelled as
`.error`. `.ok none` models the empty dict returned when no status-like
column qualifies; `.ok (some m)` a produced model. The source's default
arguments are `status_col_candidates=None` and
`timestamp_col='updated_at'`. -/
def detect_workflow (df : DataFrame) (statusColCandidates : Option (List String))
    (timestampCol : String) : Except String (Option WorkflowModel) :=
  let cands : List String := match statusColCandidates with
    | some l => l
    | none =>
      (df.cols.filter (fun (c : Col) =>
        strContains (strLower c.name) "status" ||
          strContains (strLower c.name) "state")).map Col.name
  match cands.find? (fun name =>
    match df.col? name with
    | some c => decide (1 < nunique c.values)
    | none => false) with
  | none => Except.ok none
  | some statusName =>
    match df.col? statusName with
    | none => Except.ok none
    | some statusCol =>
      let tsOpt : Option Col :=
        match df.col? timestampCol with
        | some c => if allNull c.values then none else some c
        | none => none
      let states := insSort valLE (uniqList (dropna statusCol.values))
      match tsOpt with
      | none => Except.ok (some ⟨statusName, states, ∅⟩)
      | some tsCol =>
        match df.col? "invoice_id" with
        | some inv =>
          Except.ok (some
            ⟨statusName, states, wfTransByInvoice df statusCol tsCol inv⟩)
        | none =>
          if (wfKeptPairs df statusCol tsCol).length ≠ df.nrows then
            Except.error "Grouper and axis must be same length"
          else
            Except.ok (some
              ⟨statusName, states, wfTransByIndex df statusCol tsCol⟩)

-- ------------- Dimension candidates (analyzer.py 301-310) -------------

/-- `detect_dimension_candidates(df, max_cardinality_pct)`. -/
def detect_dimension_candidates (df : DataFrame) (maxCardinalityPct : ℚ) :
    List String :=
  if df.nrows = 0 then []
  else
    (df.cols.filter (fun c =>
      let card : ℚ := (nunique c.values : ℚ) / (df.nrows : ℚ)
      decide (0 < card) && decide (card ≤ maxCardinalityPct) &&
        !(strEndsWith c.name "_id"))).map Col.name


-- ===================== Concrete fixtures =====================

/-- A 0-row table that still declares one column (C1). -/
def dfC1 : DataFrame :=
  ⟨0, [⟨"a", Dtype.object, []⟩],
   by intro c hc; simp at hc; subst hc; rfl, by decide⟩

/-- A 1-row table: its only column is simultaneously dead and a PK
candidate (C2 counterexample). -/
def colC2 : Col := ⟨"a", Dtype.int64, [some (Val.i 5)]⟩

def dfC2 : DataFrame :=
  ⟨1, [colC2], by intro c hc; simp at hc; subst hc; rfl, by decide⟩

/-- A 2-row table with a dead column `a` and a healthy PK column `b`
(C2 witness). -/
def colC2a : Col := ⟨"a", Dtype.int64, [some (Val.i 5), some (Val.i 5)]⟩

def dfC2w : DataFrame :=
  ⟨2, [colC2a, ⟨"b", Dtype.int64, [some (Val.i 1), some (Val.i 2)]⟩],
   by intro c hc; simp at hc; rcases hc with h | h <;> subst h <;> rfl, by decide⟩

/-- A 0-row table with one declared column (C3). -/
def dfC3 : DataFrame :=
  ⟨0, [⟨"a", Dtype.object, []⟩],
   by intro c hc; simp at hc; subst hc; rfl, by decide⟩

/-- The condition column of the C5 scenario: `type` with 8 `A` rows then
8 `B` rows. -/
def colType : Col :=
  ⟨"type", Dtype.object,
   [some (Val.s "A"), some (Val.s "A"), some (Val.s "A"), some (Val.s "A"),
    some (Val.s "A"), some (Val.s "A"), some (Val.s "A"), some (Val.s "A"),
    some (Val.s "B"), some (Val.s "B"), some (Val.s "B"), some (Val.s "B"),
    some (Val.s "B"), some (Val.s "B"), some (Val.s "B"), some (Val.s "B")]⟩

/-- The target column of the C5 scenario: `email`, non-null on every `A`
row, null on exactly half of the `B` rows, and with 12 > 10 distinct
values so that it is a target rather than a condition column. -/
def colEmail : Col :=
  ⟨"email", Dtype.object,
   [some (Val.s "e0"), some (Val.s "e1"), some (Val.s "e2"), some (Val.s "e3"),
    some (Val.s "e4"), some (Val.s "e5"), some (Val.s "e6"), some (Val.s "e7"),
    none, none, none, none,
    some (Val.s "f1"), some (Val.s "f2"), some (Val.s "f3"), some (Val.s "f4")]⟩

/-- The 16-row C5 table. -/
def dfMv : DataFrame :=
  ⟨16, [colType, colEmail],
   by intro c hc; simp at hc; rcases hc with h | h <;> subst h <;> rfl,
   by decide⟩

/-- Table `A` of the spec's implicit-FK example: `order_id = [1,2,3]` (C4). -/
def dfA : DataFrame :=
  ⟨3, [⟨"order_id", Dtype.int64, [some (Val.i 1), some (Val.i 2), some (Val.i 3)]⟩],
   by intro c hc; simp at hc; subst hc; rfl, by decide⟩

/-- Table `B` of the spec's implicit-FK example: PK `id = [1,2,3,4]` (C4). -/
def dfB : DataFrame :=
  ⟨4, [⟨"id", Dtype.int64,
    [some (Val.i 1), some (Val.i 2), some (Val.i 3), some (Val.i 4)]⟩],
   by intro c hc; simp at hc; subst hc; rfl, by decide⟩

/-- The suggestion the resolver emits for `dfA`/`dfB` (C4). -/
def suggC4 : Suggestion := ⟨"A", "order_id", "B", "id", 1⟩

/-- The two-row C6 table family: one entity (`invoice_id = v`) whose status
moves open → closed with timestamps `t1`, `t2`. -/
def dfWfC6 (t1 t2 v : Val) : DataFrame :=
  ⟨2, [⟨"invoice_id", Dtype.int64, [some v, some v]⟩,
       ⟨"status", Dtype.object, [some (Val.s "open"), some (Val.s "closed")]⟩,
       ⟨"updated_at", Dtype.datetime64, [some t1, some t2]⟩],
   by intro c hc; simp at hc; rcases hc with h | h | h <;> subst h <;> rfl,
   by simp⟩

/-- A table with a repeated entity column named `order_ref` (not
`invoice_id`), an open → closed status and ordered timestamps (C10). -/
def dfC10w : DataFrame :=
  ⟨2, [⟨"order_ref", Dtype.int64, [some (Val.i 7), some (Val.i 7)]⟩,
       ⟨"status", Dtype.object, [some (Val.s "open"), some (Val.s "closed")]⟩,
       ⟨"updated_at", Dtype.datetime64, [some (Val.t 1), some (Val.t 2)]⟩],
   by intro c hc; simp at hc; rcases hc with h | h | h <;> subst h <;> rfl,
   by decide⟩

/-- The workflow model `detect_workflow` produces for `dfC10w`: states are
found but, with per-row grouping, no transition is observed. -/
def mC10 : WorkflowModel := ⟨"status", [Val.s "closed", Val.s "open"], ∅⟩

/-- The C7 failing input: a qualifying status column, an `updated_at`
column with one null cell (so `dropna` removes a row), and no
`invoice_id` column. -/
def dfC7bad : DataFrame :=
  ⟨3, [⟨"status", Dtype.object,
        [some (Val.s "open"), some (Val.s "closed"), some (Val.s "open")]⟩,
       ⟨"updated_at", Dtype.datetime64,
        [some (Val.t 1), none, some (Val.t 3)]⟩],
   by intro c hc; simp at hc; rcases hc with h | h <;> subst h <;> rfl,
   by decide⟩

/-- The numeric column of the C8 witness table: 5 values perfectly
correlated with the timestamp difference, but only 5 aligned rows. -/
def colDias : Col :=
  ⟨"dias", Dtype.int64,
   [some (Val.i 0), some (Val.i 1), some (Val.i 2), some (Val.i 3), some (Val.i 4)]⟩

/-- A constant start-timestamp column (C8). -/
def colCreated : Col :=
  ⟨"created_at", Dtype.datetime64,
   [some (Val.t 0), some (Val.t 0), some (Val.t 0), some (Val.t 0), some (Val.t 0)]⟩

/-- An increasing end-timestamp column (C8). -/
def colUpdated : Col :=
  ⟨"updated_at", Dtype.datetime64,
   [some (Val.t 0), some (Val.t 1), some (Val.t 2), some (Val.t 3), some (Val.t 4)]⟩

/-- The 5-row C8 witness table: the correlation would be perfect, but the
aligned sample is smaller than 10. -/
def dfDer : DataFrame :=
  ⟨5, [colDias, colCreated, colUpdated],
   by intro c hc; simp at hc; rcases hc with h | h | h <;> subst h <;> rfl,
   by decide⟩

-- ===================== Generic lemmas =====================

theorem mem_ite_nil {α : Type} {P : Prop} [Decidable P] {a : α} {l : List α} :
    (a ∈ if P then l else []) ↔ P ∧ a ∈ l := by
  split
  · rename_i h; simp [h]
  · rename_i h; simp [h]

theorem flatMap_eq_map_of_forall {α β : Type} (l : List α) (f : α → List β)
    (g : α → β) (h : ∀ c ∈ l, f c = [g c]) : l.flatMap f = l.map g := by
  induction l with
  | nil => rfl
  | cons x xs ih =>
    rw [List.flatMap_cons, List.map_cons, h x (List.mem_cons_self x xs),
      ih (fun c hc => h c (List.mem_cons_of_mem x hc))]
    rfl

theorem foldl_uniqStep_sublist {α : Type} [DecidableEq α] :
    ∀ (l acc : List α), ∃ t, l.foldl uniqStep acc = acc ++ t ∧ t.Sublist l := by
  intro l
  induction l with
  | nil => intro acc; exact ⟨[], by simp, List.Sublist.refl []⟩
  | cons x xs ih =>
    intro acc
    rw [List.foldl_cons]
    by_cases hx : x ∈ acc
    · have hstep : uniqStep acc x = acc := if_pos hx
      rw [hstep]
      rcases ih acc with ⟨t, ht, hsub⟩
      exact ⟨t, ht, hsub.cons x⟩
    · have hstep : uniqStep acc x = acc ++ [x] := if_neg hx
      rw [hstep]
      rcases ih (acc ++ [x]) with ⟨t, ht, hsub⟩
      exact ⟨x :: t, by rw [ht]; simp, hsub.cons₂ x⟩

theorem uniqList_sublist {α : Type} [DecidableEq α] (l : List α) :
    (uniqList l).Sublist l := by
  rcases foldl_uniqStep_sublist l [] with ⟨t, ht, hsub⟩
  rw [uniqList, ht]
  simpa using hsub

theorem isUniqueSeries_iff_nodup {l : List (Option Val)} :
    isUniqueSeries l = true ↔ l.Nodup := by
  unfold isUniqueSeries
  rw [beq_iff_eq]
  constructor
  · intro h
    have := (uniqList_sublist l).eq_of_length h
    rw [← this]
    exact nodup_uniqList l
  · intro h
    rw [uniqList_eq_self h]

theorem dropna_length_of_no_null {l : List (Option Val)}
    (h : anyNull l = false) : (dropna l).length = l.length := by
  induction l with
  | nil => rfl
  | cons v xs ih =>
    rw [anyNull, List.any_cons, Bool.or_eq_false_iff] at h
    cases v with
    | none => simp at h
    | some a =>
      rw [dropna, List.filterMap_cons]
      simp only [id]
      have ih2 := ih (by rw [anyNull]; exact h.2)
      rw [dropna] at ih2
      rw [List.length_cons, ih2, List.length_cons]

theorem dropna_nodup {l : List (Option Val)} (h : l.Nodup) :
    (dropna l).Nodup := by
  apply List.Nodup.filterMap _ h
  intro a b c hc hc'
  simp only [id, Option.mem_def] at hc hc'
  rw [hc, hc']

theorem floor_le_pyRound (x : ℚ) : ⌊x⌋ ≤ pyRound x := by
  unfold pyRound
  dsimp only
  split
  · exact le_refl _
  · split
    · omega
    · split
      · exact le_refl _
      · omega

theorem pyRound_le_ceil (x : ℚ) : pyRound x ≤ ⌈x⌉ := by
  unfold pyRound
  dsimp only
  split
  · exact Int.floor_le_ceil x
  · rename_i h1
    push_neg at h1
    have hx : (⌊x⌋ : ℚ) < x := by linarith
    have h2 : ⌊x⌋ + 1 ≤ ⌈x⌉ := Int.add_one_le_iff.mpr (Int.lt_ceil.mpr hx)
    have h3 : ⌊x⌋ ≤ ⌈x⌉ := Int.floor_le_ceil x
    split
    · exact h2
    · split
      · exact h3
      · exact h2

theorem mem_foldl_uniqStep {α : Type} [DecidableEq α] {a : α} :
    ∀ (l acc : List α), a ∈ l.foldl uniqStep acc ↔ a ∈ acc ∨ a ∈ l := by
  intro l
  induction l with
  | nil => simp
  | cons x xs ih =>
    intro acc
    rw [List.foldl_cons, ih]
    by_cases hx : x ∈ acc
    · rw [show uniqStep acc x = acc from if_pos hx]
      constructor
      · rintro (h | h)
        · exact Or.inl h
        · exact Or.inr (List.mem_cons_of_mem x h)
      · rintro (h | h)
        · exact Or.inl h
        · rcases List.mem_cons.mp h with rfl | h2
          · exact Or.inl hx
          · exact Or.inr h2
    · rw [show uniqStep acc x = acc ++ [x] from if_neg hx]
      simp only [List.mem_append, List.mem_singleton, List.mem_cons]
      tauto

theorem mem_uniqList {α : Type} [DecidableEq α] {a : α} {l : List α} :
    a ∈ uniqList l ↔ a ∈ l := by
  rw [uniqList, mem_foldl_uniqStep]
  simp

theorem DataFrame.name_inj (df : DataFrame) {c₁ c₂ : Col}
    (h₁ : c₁ ∈ df.cols) (h₂ : c₂ ∈ df.cols) (h : c₁.name = c₂.name) : c₁ = c₂ :=
  List.inj_on_of_nodup_map df.names_nodup h₁ h₂ h


theorem mem_ite_nil_rev {α : Type} {P : Prop} [Decidable P] {a : α} {l : List α} :
    (a ∈ if P then [] else l) ↔ ¬P ∧ a ∈ l := by
  split
  · rename_i h; simp [h]
  · rename_i h; simp [h]

theorem mem_dropna {v : Val} {l : List (Option Val)} :
    v ∈ dropna l ↔ some v ∈ l := by
  rw [dropna, List.mem_filterMap]
  constructor
  · rintro ⟨cell, hc, hid⟩
    simp only [id] at hid
    rwa [hid] at hc
  · intro h
    exact ⟨some v, h, rfl⟩

theorem filter_filter_and {α : Type} (p q : α → Bool) (l : List α) :
    (l.filter p).filter q = l.filter (fun a => p a && q a) := by
  induction l with
  | nil => rfl
  | cons x xs ih =>
    by_cases hp : p x <;> by_cases hq : q x <;>
      simp [List.filter_cons, hp, hq, ih]

theorem round3_zero : round3 0 = 0 := by
  have h : pyRound 0 = 0 := by
    unfold pyRound
    norm_num
  rw [round3]
  norm_num [h]

/-- Membership in `detect_multivariate_rules`, unfolded along the loop
structure of the source. -/
theorem mem_detect_multivariate_rules {df : DataFrame} {mc : ℕ} {mv : ℚ}
    {r : MvRule} :
    r ∈ detect_multivariate_rules df mc mv ↔
      (df.nrows ≠ 0 ∧ ∃ cond, cond ∈ mvCondCols df mc ∧
        ∃ target, target ∈ mvTargetCols df mc ∧
          ¬(mvSubset cond target).isEmpty = true ∧
          ∃ val, val ∈ uniqList ((mvSubset cond target).map Prod.fst) ∧
            ¬(mvCondRows cond target val).isEmpty = true ∧
            mvNullPct cond target val ≤ mv ∧
            r = ⟨cond.name, val, target.name,
              round3 (mvNullPct cond target val)⟩) := by
  rw [detect_multivariate_rules]
  split
  · rename_i h0
    simp [h0]
  · rename_i h0
    simp only [List.mem_flatMap, mem_ite_nil_rev, List.mem_singleton,
      mem_ite_nil]
    constructor
    · rintro ⟨cond, hcond, target, htarget, hsub, val, hval, hrows, hpct, hr⟩
      exact ⟨h0, cond, hcond, target, htarget, hsub, val, hval, hrows, hpct, hr⟩
    · rintro ⟨_, cond, hcond, target, htarget, hsub, val, hval, hrows, hpct, hr⟩
      exact ⟨cond, hcond, target, htarget, hsub, val, hval, hrows, hpct, hr⟩

theorem overlapRatio_le_one (a b : Finset Val) : overlapRatio a b ≤ 1 := by
  unfold overlapRatio
  rcases Nat.eq_zero_or_pos (min a.card b.card) with h | h
  · rw [h]
    simp
  · rw [div_le_one (by exact_mod_cast h)]
    have h1 : (a ∩ b).card ≤ a.card := Finset.card_le_card Finset.inter_subset_left
    have h2 : (a ∩ b).card ≤ b.card := Finset.card_le_card Finset.inter_subset_right
    exact_mod_cast le_min h1 h2

theorem bestMatch_snd_le_one (cands : List (String × String × ℚ))
    (h : ∀ c ∈ cands, c.2.2 ≤ 1) : (bestMatch cands).2 ≤ 1 := by
  unfold bestMatch
  suffices H : ∀ (l : List (String × String × ℚ))
      (acc : Option (String × String) × ℚ), acc.2 ≤ 1 →
      (∀ c ∈ l, c.2.2 ≤ 1) →
      ((l.foldl (fun acc c =>
        if acc.2 < c.2.2 then (some (c.1, c.2.1), c.2.2) else acc) acc).2 ≤ 1) by
    exact H cands (none, 0) (by norm_num) h
  intro l
  induction l with
  | nil =>
    intro acc ha _
    simpa using ha
  | cons x xs ih =>
    intro acc ha hall
    rw [List.foldl_cons]
    apply ih
    · dsimp only
      split
      · exact hall x (List.mem_cons_self x xs)
      · exact ha
    · intro c hc
      exact hall c (List.mem_cons_of_mem x hc)

theorem fkCandRatios_le_one (tables : List (String × DataFrame))
    (tblFrom : String) (fkVals : Finset Val) :
    ∀ c ∈ fkCandRatios tables tblFrom fkVals, c.2.2 ≤ 1 := by
  intro c hc
  rw [fkCandRatios, List.mem_flatMap] at hc
  rcases hc with ⟨tto, _, hc⟩
  split at hc
  · simp at hc
  · rw [List.mem_flatMap] at hc
    rcases hc with ⟨pk, _, hc⟩
    split at hc
    · simp at hc
    · dsimp only at hc
      split at hc
      · simp at hc
      · rcases List.mem_singleton.mp hc with rfl
        exact overlapRatio_le_one _ _

theorem round2_bounds {r : ℚ} (h1 : 1 / 2 ≤ r) (h2 : r ≤ 1) :
    1 / 2 ≤ round2 r ∧ round2 r ≤ 1 := by
  have hf : (50 : ℤ) ≤ ⌊r * 100⌋ := Int.le_floor.mpr (by push_cast; linarith)
  have hc : ⌈r * 100⌉ ≤ (100 : ℤ) := Int.ceil_le.mpr (by push_cast; linarith)
  have hlo : (50 : ℚ) ≤ (pyRound (r * 100) : ℚ) := by
    exact_mod_cast le_trans hf (floor_le_pyRound (r * 100))
  have hhi : ((pyRound (r * 100) : ℚ)) ≤ 100 := by
    exact_mod_cast le_trans (pyRound_le_ceil (r * 100)) hc
  rw [round2]
  constructor <;> linarith

theorem walkTrans_short {l : List Val} (h : l.length ≤ 1) : walkTrans l = [] := by
  match l with
  | [] => rfl
  | [a] => rfl
  | a :: b :: rest => simp at h

theorem filter_map_nodup_len_le_one {α β : Type} [BEq β] [LawfulBEq β]
    (f : α → β) :
    ∀ (l : List α), (l.map f).Nodup → ∀ y : β,
      (l.filter (fun r => f r == y)).length ≤ 1 := by
  intro l
  induction l with
  | nil =>
    intro _ y
    simp
  | cons x xs ih =>
    intro hnd y
    rw [List.map_cons, List.nodup_cons] at hnd
    rw [List.filter_cons]
    split
    · rename_i hxy
      rw [beq_iff_eq] at hxy
      have hempty : xs.filter (fun r => f r == y) = [] := by
        rw [List.filter_eq_nil_iff]
        intro r hr hry
        rw [beq_iff_eq] at hry
        exact hnd.1 (List.mem_map.mpr ⟨r, hr, by rw [hry, hxy]⟩)
      rw [hempty]
      simp
    · exact le_trans (ih hnd.2 y) (le_refl 1)

theorem colPairs_mem {x y : Col} :
    ∀ {l : List Col}, (x, y) ∈ colPairs l → x ∈ l ∧ y ∈ l := by
  intro l
  induction l with
  | nil =>
    intro h
    simp [colPairs] at h
  | cons z zs ih =>
    intro h
    rw [colPairs, List.mem_append] at h
    rcases h with h | h
    · rcases List.mem_map.mp h with ⟨w, hw, hpair⟩
      rw [Prod.mk.injEq] at hpair
      exact ⟨hpair.1 ▸ List.mem_cons_self z zs,
        List.mem_cons_of_mem z (hpair.2 ▸ hw)⟩
    · rcases ih h with ⟨h1, h2⟩
      exact ⟨List.mem_cons_of_mem z h1, List.mem_cons_of_mem z h2⟩

-- ===================== C1 =====================

/-- C1, counterexample: the claim "`find_primary_keys` applied to an empty
table yields the empty list, for every set of columns the table declares"
is false. On a 0-row table declaring one column `a`, every column is
vacuously unique and non-null, so `find_primary_keys` returns `["a"]`,
not `[]`. -/
theorem c1_counterexample :
    dfC1.nrows = 0 ∧ find_primary_keys dfC1 = ["a"] := by
  exact ⟨rfl, by decide⟩

/-- C1 (amended): for every table with 0 rows, `find_primary_keys` returns
every declared column (each empty column is vacuously `is_unique` and has
no null), i.e. the full column-name list, not the empty list. -/
theorem c1_zero_rows_all_columns_are_pk_candidates (df : DataFrame)
    (h : df.nrows = 0) : find_primary_keys df = df.colNames := by
  unfold find_primary_keys DataFrame.colNames
  congr 1
  apply List.filter_eq_self.mpr
  intro c hc
  have hv : c.values = [] := by
    have := df.len_eq c hc
    rw [h] at this
    exact List.length_eq_zero.mp this
  rw [hv]
  rfl

/-- C1 witness: the amended theorem applied to the concrete 0-row table. -/
theorem c1_witness : find_primary_keys dfC1 = dfC1.colNames :=
  c1_zero_rows_all_columns_are_pk_candidates dfC1 rfl

-- ===================== C2 =====================

/-- C2, counterexample: the claim "no column flagged dead appears in the
primary-key candidate list" is false. In a 1-row table the column
`[5]` has one distinct value (`detect_dead_column` is true) yet is unique
and non-null, so it is returned as a PK candidate. -/
theorem c2_counterexample :
    detect_dead_column colC2.values = true ∧ find_primary_keys dfC2 = ["a"] := by
  exact ⟨by decide, by decide⟩

/-- C2 (amended): in every table with at least 2 rows, a dead column
(all-null or at most one distinct value) is never a primary-key
candidate; only the degenerate 0- and 1-row tables violate the claim. -/
theorem c2_dead_column_never_pk_from_two_rows (df : DataFrame) (c : Col)
    (hrows : 2 ≤ df.nrows) (hc : c ∈ df.cols)
    (hdead : detect_dead_column c.values = true) :
    c.name ∉ find_primary_keys df := by
  intro hmem
  unfold find_primary_keys at hmem
  rcases List.mem_map.mp hmem with ⟨c2, hc2, hname⟩
  rcases List.mem_filter.mp hc2 with ⟨hc2cols, hpred⟩
  have hceq : c2 = c := df.name_inj hc2cols hc hname
  subst hceq
  rw [Bool.and_eq_true] at hpred
  have hnodup : c2.values.Nodup := isUniqueSeries_iff_nodup.mp hpred.1
  have hnonull : anyNull c2.values = false := by
    have := hpred.2
    rwa [Bool.not_eq_true'] at this
  have hlen : c2.values.length = df.nrows := df.len_eq c2 hc2cols
  rw [detect_dead_column, Bool.or_eq_true] at hdead
  rcases hdead with hall | hle
  · -- an all-null column of length ≥ 2 certainly has a null
    have hne : c2.values ≠ [] := by
      intro hnil
      rw [hnil] at hlen
      simp at hlen
      omega
    rcases List.exists_mem_of_ne_nil c2.values hne with ⟨v, hv⟩
    have h1 : v = none := by
      rw [allNull, List.all_eq_true] at hall
      exact Option.isNone_iff_eq_none.mp (hall v hv)
    rw [anyNull] at hnonull
    exact (List.any_eq_false.mp hnonull v hv) (by rw [h1]; rfl)
  · -- nunique = row count ≥ 2 for a unique, non-null column
    have hd1 : (dropna c2.values).length = c2.values.length :=
      dropna_length_of_no_null hnonull
    have hd2 : uniqList (dropna c2.values) = dropna c2.values :=
      uniqList_eq_self (dropna_nodup hnodup)
    rw [decide_eq_true_eq, nunique, hd2, hd1, hlen] at hle
    omega

/-- C2 witness: the amended theorem applied to a concrete 2-row table with
a dead column `a` and a PK column `b`. -/
theorem c2_witness :
    2 ≤ dfC2w.nrows ∧ detect_dead_column colC2a.values = true ∧
      colC2a.name ∉ find_primary_keys dfC2w :=
  ⟨by decide, by decide,
    c2_dead_column_never_pk_from_two_rows dfC2w colC2a (by decide) (by decide)
      (by decide)⟩

-- ===================== C3 =====================

/-- C3, counterexample: the claim "`find_business_fields` on a 0-row table
returns an empty candidate mapping" is false. With 0 rows the source
defines both ratios as 0, which is strictly below the default 0.1
thresholds, so every declared column becomes a candidate. -/
theorem c3_counterexample :
    dfC3.nrows = 0 ∧ find_business_fields dfC3 (1 / 10) (1 / 10) ≠ [] ∧
      (find_business_fields dfC3 (1 / 10) (1 / 10)).map Prod.fst = ["a"] := by
  refine ⟨rfl, ?_, ?_⟩ <;> with_unfolding_all decide

/-- C3 (amended): a business-field candidate is emitted only when the
column's unique ratio is strictly below `threshold_unique` and its null
ratio is strictly below `threshold_null` (that part of the claim holds);
but on a 0-row table both ratios are defined as 0, so (for positive
thresholds) every declared column is emitted, with zero metrics and an
empty sample — not the empty mapping the claim asserts. -/
theorem c3_business_fields_thresholds_and_zero_rows (df : DataFrame)
    (thU thN : ℚ) :
    (∀ p ∈ find_business_fields df thU thN,
        ∃ c ∈ df.cols, p.1 = c.name ∧
          nuniqueRatio df c < thU ∧ nullRatio df c < thN) ∧
    (df.nrows = 0 → 0 < thU → 0 < thN →
        find_business_fields df thU thN =
          df.cols.map (fun c => (c.name, ⟨0, 0, []⟩))) := by
  constructor
  · intro p hp
    rw [find_business_fields, List.mem_flatMap] at hp
    rcases hp with ⟨c, hc, hpc⟩
    simp only at hpc
    rw [mem_ite_nil] at hpc
    rcases hpc with ⟨⟨h1, h2⟩, hpl⟩
    rcases List.mem_singleton.mp hpl with rfl
    exact ⟨c, hc, rfl, h1, h2⟩
  · intro h0 hU hN
    rw [find_business_fields]
    apply flatMap_eq_map_of_forall
    intro c hc
    have hv : c.values = [] := by
      have := df.len_eq c hc
      rw [h0] at this
      exact List.length_eq_zero.mp this
    have hnq : nuniqueRatio df c = 0 := if_pos h0
    have hnl : nullRatio df c = 0 := if_pos h0
    have hs : sampleValues c = [] := by rw [sampleValues, hv]; rfl
    simp only [hnq, hnl, hs]
    rw [if_pos ⟨hU, hN⟩]

/-- C3 witness: the amended theorem applied to the concrete 0-row table at
the default thresholds. -/
theorem c3_witness :
    find_business_fields dfC3 (1 / 10) (1 / 10) =
      dfC3.cols.map (fun c => (c.name, ⟨0, 0, []⟩)) :=
  (c3_business_fields_thresholds_and_zero_rows dfC3 (1 / 10) (1 / 10)).2
    rfl (by with_unfolding_all decide) (by with_unfolding_all decide)

-- ===================== C4 =====================

/-- C4: every implicit relationship suggestion produced by
`infer_implicit_fks` (at the default `min_overlap_ratio = 0.5` used by
`run_analysis`) has confidence in `(0, 1]`; no suggestion is emitted for an
`(fk column, table)` pair already covered by a relationship in the
existing-relationships list; and every suggestion's FK column has a
non-empty set of non-null values (columns with an empty value set are
skipped). -/
theorem c4_implicit_fk_invariants (tables : List (String × DataFrame))
    (existingRels : List Rel) (s : Suggestion)
    (hs : s ∈ infer_implicit_fks tables existingRels (1 / 2)) :
    (0 < s.confidence ∧ s.confidence ≤ 1) ∧
    (∀ rel ∈ existingRels, ¬(rel.from_table = s.from_table ∧ rel.fk = s.fk)) ∧
    (∃ df c, (s.from_table, df) ∈ tables ∧ c ∈ df.cols ∧ c.name = s.fk ∧
      dropna c.values ≠ []) := by
  rw [infer_implicit_fks, List.mem_flatMap] at hs
  rcases hs with ⟨tfrom, htfrom, hs⟩
  rw [List.mem_flatMap] at hs
  rcases hs with ⟨col, hcolmem, hs⟩
  simp only at hs
  split at hs
  · simp at hs
  · rename_i hguard
    split at hs
    · simp at hs
    · rename_i hfkne
      split at hs
      · simp at hs
      · rename_i bm hbm
        split at hs
        · rename_i hratio
          rcases List.mem_singleton.mp hs with rfl
          refine ⟨?_, ?_, ?_⟩
          · -- confidence = round2 best_ratio with best_ratio ∈ [1/2, 1]
            have hle1 : (bestMatch (fkCandRatios tables tfrom.1
                ((dropna col.values).toFinset))).2 ≤ 1 :=
              bestMatch_snd_le_one _ (fkCandRatios_le_one _ _ _)
            have hb := round2_bounds hratio hle1
            exact ⟨by linarith [hb.1], hb.2⟩
          · -- the already-mapped guard was false
            intro rel hrel hcontra
            have := List.any_eq_false.mp (Bool.not_eq_true _ ▸ hguard) rel hrel
            apply this
            rw [Bool.and_eq_true, beq_iff_eq, beq_iff_eq]
            exact ⟨hcontra.1, hcontra.2⟩
          · -- the empty-value-set guard was false
            refine ⟨tfrom.2, col, ?_, (List.mem_filter.mp hcolmem).1, rfl, ?_⟩
            · simpa using htfrom
            · intro hnil
              apply hfkne
              rw [hnil]
              rfl
        · simp at hs

/-- C4 witness: the invariants instantiated on the spec's own example
(`A.order_id = [1,2,3]` against `B.id = [1,2,3,4]`, suggested with
confidence 1.0). -/
theorem c4_witness :
    (0 < suggC4.confidence ∧ suggC4.confidence ≤ 1) ∧
    (∀ rel ∈ ([] : List Rel),
      ¬(rel.from_table = suggC4.from_table ∧ rel.fk = suggC4.fk)) ∧
    (∃ df c, (suggC4.from_table, df) ∈ [("A", dfA), ("B", dfB)] ∧
      c ∈ df.cols ∧ c.name = suggC4.fk ∧ dropna c.values ≠ []) :=
  c4_implicit_fk_invariants [("A", dfA), ("B", dfB)] [] suggC4
    (by with_unfolding_all decide)

-- ===================== C5 =====================

/-- C5: for every table with a condition column `type` taking exactly the
non-null values `{A, B}` (so its cardinality 2 puts it below
`max_cardinality = 10`) and a target column `email` (cardinality above 10,
hence not a condition column) such that every `type = A` row has a
non-null email and exactly half of the `type = B` rows have a null email,
`detect_multivariate_rules` at `max_violation = 0.05` emits the rule
"`type = A` requires `email` non-null" with violation 0, and emits no rule
for `type = B`. -/
theorem c5_multivariate_rule_type_email (df : DataFrame) (tc ec : Col)
    (A B : Val)
    (htc : tc ∈ df.cols) (htn : tc.name = "type")
    (hec : ec ∈ df.cols) (hen : ec.name = "email")
    (hbig : 10 < nunique ec.values)
    (hAB : ∀ v ∈ tc.values, v = some A ∨ v = some B)
    (hne : A ≠ B)
    (hA : some A ∈ tc.values) (hB : some B ∈ tc.values)
    (hAmail : ∀ p ∈ tc.values.zip ec.values, p.1 = some A → p.2 ≠ none)
    (hBhalf : 2 * ((tc.values.zip ec.values).filter
        (fun p => p.1 == some B && p.2.isNone)).length =
      ((tc.values.zip ec.values).filter (fun p => p.1 == some B)).length) :
    (⟨"type", some A, "email", 0⟩ : MvRule) ∈
        detect_multivariate_rules df 10 (1 / 20) ∧
    ∀ q : ℚ, (⟨"type", some B, "email", q⟩ : MvRule) ∉
        detect_multivariate_rules df 10 (1 / 20) := by
  -- shared facts
  have hlen : ec.values.length = tc.values.length := by
    rw [df.len_eq ec hec, df.len_eq tc htc]
  have hzlen : (tc.values.zip ec.values).length = tc.values.length := by
    rw [List.length_zip, hlen, Nat.min_self]
  have hsub : mvSubset tc ec = tc.values.zip ec.values := by
    rw [mvSubset]
    apply List.filter_eq_self.mpr
    intro p hp
    rcases p with ⟨v, w⟩
    rcases List.of_mem_zip hp with ⟨hv, _⟩
    rcases hAB v hv with h | h <;> rw [h] <;> rfl
  have hnz : df.nrows ≠ 0 := by
    rw [← df.len_eq tc htc]
    intro h0
    rw [List.length_eq_zero.mp h0] at hB
    exact List.not_mem_nil _ hB
  -- type has exactly two distinct values
  have hnu : nunique tc.values = 2 := by
    have hmm : ∀ v, v ∈ uniqList (dropna tc.values) ↔ v = A ∨ v = B := by
      intro v
      rw [mem_uniqList, mem_dropna]
      constructor
      · intro hv
        rcases hAB (some v) hv with h | h
        · exact Or.inl (Option.some_inj.mp h)
        · exact Or.inr (Option.some_inj.mp h)
      · rintro (rfl | rfl)
        · exact hA
        · exact hB
    have h1 : (uniqList (dropna tc.values)).toFinset = {A, B} := by
      ext v
      rw [List.mem_toFinset, hmm, Finset.mem_insert, Finset.mem_singleton]
    have h2 : (uniqList (dropna tc.values)).toFinset.card =
        (uniqList (dropna tc.values)).length := by
      rw [List.card_toFinset, List.Nodup.dedup (nodup_uniqList _)]
    rw [nunique, ← h2, h1, Finset.card_pair hne]
  have htcCond : tc ∈ mvCondCols df 10 := by
    rw [mvCondCols, List.mem_filter]
    refine ⟨htc, ?_⟩
    rw [decide_eq_true_eq, hnu]
    omega
  have hecTarget : ec ∈ mvTargetCols df 10 := by
    rw [mvTargetCols, List.mem_filter]
    refine ⟨hec, ?_⟩
    rw [Bool.not_eq_true']
    by_contra hcon
    rw [Bool.not_eq_false] at hcon
    rcases List.mem_map.mp (List.mem_of_elem_eq_true hcon) with ⟨c, hcmem, hcname⟩
    rcases List.mem_filter.mp hcmem with ⟨hccols, hcsmall⟩
    have hce : c = ec := df.name_inj hccols hec (by rw [hcname, hen])
    rw [decide_eq_true_eq, hce] at hcsmall
    omega
  -- an A-row and a B-row exist among the zipped pairs
  have hpairA : ∃ p ∈ tc.values.zip ec.values, p.1 = some A := by
    rcases List.mem_iff_getElem.mp hA with ⟨i, hi, hgi⟩
    have hiz : i < (tc.values.zip ec.values).length := by omega
    refine ⟨(tc.values.zip ec.values)[i], List.getElem_mem hiz, ?_⟩
    rw [List.getElem_zip]
    exact hgi
  have hpairB : ∃ p ∈ tc.values.zip ec.values, p.1 = some B := by
    rcases List.mem_iff_getElem.mp hB with ⟨i, hi, hgi⟩
    have hiz : i < (tc.values.zip ec.values).length := by omega
    refine ⟨(tc.values.zip ec.values)[i], List.getElem_mem hiz, ?_⟩
    rw [List.getElem_zip]
    exact hgi
  -- the violation of the A rule is zero
  have hrowsA0 : (mvCondRows tc ec (some A)).filter (fun p => p.2.isNone) = [] := by
    rw [List.filter_eq_nil_iff]
    intro p hp
    rcases List.mem_filter.mp hp with ⟨hps, hpA⟩
    rw [hsub] at hps
    have := hAmail p hps (beq_iff_eq.mp hpA)
    rcases p with ⟨v, w⟩
    cases w
    · exact absurd rfl this
    · simp
  have hpctA : mvNullPct tc ec (some A) = 0 := by
    rw [mvNullPct, hrowsA0]
    simp
  constructor
  · -- the A rule is emitted
    rw [mem_detect_multivariate_rules]
    rcases hpairA with ⟨p, hpmem, hp1⟩
    have hpcond : p ∈ mvCondRows tc ec (some A) := by
      rw [mvCondRows, hsub, List.mem_filter]
      exact ⟨hpmem, by rw [hp1]; simp⟩
    refine ⟨hnz, tc, htcCond, ec, hecTarget, ?_, some A, ?_, ?_, ?_, ?_⟩
    · rw [hsub, List.isEmpty_iff]
      intro hnil
      rw [hnil] at hpmem
      exact List.not_mem_nil _ hpmem
    · rw [hsub, mem_uniqList]
      exact List.mem_map.mpr ⟨p, hpmem, hp1⟩
    · rw [List.isEmpty_iff]
      intro hnil
      rw [hnil] at hpcond
      exact List.not_mem_nil _ hpcond
    · rw [hpctA]
      norm_num
    · rw [htn, hen, hpctA, round3_zero]
  · -- no B rule is emitted
    intro q hq
    rw [mem_detect_multivariate_rules] at hq
    rcases hq with ⟨-, cond, hcond, target, htarget, -, val, -, -, hpct, heq⟩
    rw [MvRule.mk.injEq] at heq
    rcases heq with ⟨hn1, hv1, hn2, -⟩
    have hceq : cond = tc :=
      df.name_inj (List.mem_filter.mp hcond).1 htc (by rw [← hn1, htn])
    have hteq : target = ec :=
      df.name_inj (List.mem_filter.mp htarget).1 hec (by rw [← hn2, hen])
    rw [← hv1, hceq, hteq] at hpct
    -- but the B violation is exactly one half
    have hrowsB : mvCondRows tc ec (some B) =
        (tc.values.zip ec.values).filter (fun p => p.1 == some B) := by
      rw [mvCondRows, hsub]
    have hnumB : (mvCondRows tc ec (some B)).filter (fun p => p.2.isNone) =
        (tc.values.zip ec.values).filter
          (fun p => p.1 == some B && p.2.isNone) := by
      rw [hrowsB, filter_filter_and]
    have hdenpos : 0 < ((tc.values.zip ec.values).filter
        (fun p => p.1 == some B)).length := by
      rcases hpairB with ⟨p, hpmem, hp1⟩
      have : p ∈ (tc.values.zip ec.values).filter (fun p => p.1 == some B) :=
        List.mem_filter.mpr ⟨hpmem, by rw [hp1]; simp⟩
      exact List.length_pos.mpr (fun hnil => List.not_mem_nil p (hnil ▸ this))
    have hhalf : mvNullPct tc ec (some B) = 1 / 2 := by
      rw [mvNullPct, hnumB, hrowsB]
      have hcast : ((2 : ℚ)) * (((tc.values.zip ec.values).filter
          (fun p => p.1 == some B && p.2.isNone)).length : ℚ) =
          (((tc.values.zip ec.values).filter
            (fun p => p.1 == some B)).length : ℚ) := by
        exact_mod_cast hBhalf
      have hdq : (((tc.values.zip ec.values).filter
          (fun p => p.1 == some B)).length : ℚ) ≠ 0 := by
        exact_mod_cast Nat.pos_iff_ne_zero.mp hdenpos
      rw [div_eq_iff hdq]
      linarith
    rw [hhalf] at hpct
    norm_num at hpct

/-- C5 witness: the theorem instantiated on the concrete 16-row table
(8 `A` rows with emails, 8 `B` rows of which 4 have null emails). -/
theorem c5_witness :
    (⟨"type", some (Val.s "A"), "email", 0⟩ : MvRule) ∈
        detect_multivariate_rules dfMv 10 (1 / 20) ∧
    ∀ q : ℚ, (⟨"type", some (Val.s "B"), "email", q⟩ : MvRule) ∉
        detect_multivariate_rules dfMv 10 (1 / 20) :=
  c5_multivariate_rule_type_email dfMv colType colEmail (Val.s "A") (Val.s "B")
    (by decide) rfl (by decide) rfl (by decide) (by decide) (by decide)
    (by decide) (by decide) (by decide) (by decide)

-- ===================== C6 =====================

/-- C6: for a table with a `status` column over `{open, closed}`, an
`updated_at` timestamp column, and two rows of the same entity (same
`invoice_id`, the grouping column the source uses) whose status moves
from `open` to `closed` in timestamp order, `detect_workflow` returns the
workflow model whose transition set is exactly `{(open, closed)}` (and
whose state list is the sorted distinct states). -/
theorem c6_workflow_open_closed_transition (t1 t2 v : Val)
    (hord : valLE t1 t2 = true) :
    detect_workflow (dfWfC6 t1 t2 v) none "updated_at" =
      Except.ok (some ⟨"status", [Val.s "closed", Val.s "open"],
        {(Val.s "open", Val.s "closed")}⟩) := by
  simp [detect_workflow, dfWfC6, DataFrame.col?, wfTransByInvoice, wfRowsInv,
    insSort, insertSorted, uniqList, uniqStep, dropna, nunique, allNull,
    walkTrans, hord, List.find?, List.range, List.range.loop, strContains,
    strLower,
    show valLE (Val.s "open") (Val.s "closed") = false from by
      with_unfolding_all decide,
    show valLE (Val.s "closed") (Val.s "open") = true from by
      with_unfolding_all decide]

/-- C6 witness: the theorem at concrete timestamps 1 < 2 and entity id 7. -/
theorem c6_witness :
    detect_workflow (dfWfC6 (Val.t 1) (Val.t 2) (Val.i 7)) none "updated_at" =
      Except.ok (some ⟨"status", [Val.s "closed", Val.s "open"],
        {(Val.s "open", Val.s "closed")}⟩) :=
  c6_workflow_open_closed_transition (Val.t 1) (Val.t 2) (Val.i 7)
    (by with_unfolding_all decide)

-- ===================== C7 =====================

/-- C7 (code bug): the claim — like the spec's failure-semantics section —
says `detect_workflow` returns a value and never raises, in particular
when some rows are dropped for missing status or timestamp values and no
entity-identifier column is present. That is exactly where the source
raises: `analyzer.py:283` passes the ORIGINAL `df.index` as an array-like
grouper while `df_sorted` lost rows to
`dropna(subset=[status_col, timestamp_col])`, so pandas raises
`ValueError("Grouper and axis must be same length")`. On a 3-row table
with a qualifying status column, one null `updated_at` cell and no
`invoice_id` column, the model reproduces that error. -/
theorem c7_groupby_length_mismatch_raises :
    "invoice_id" ∉ dfC7bad.colNames ∧
    detect_workflow dfC7bad none "updated_at" =
      Except.error "Grouper and axis must be same length" := by
  exact ⟨by decide, by with_unfolding_all decide⟩

-- ===================== C10 =====================

theorem wfTransByIndex_empty (df : DataFrame) (statusCol tsCol : Col) :
    wfTransByIndex df statusCol tsCol = ∅ := by
  simp only [wfTransByIndex]
  apply Finset.eq_empty_iff_forall_not_mem.mpr
  intro p hp
  rw [List.mem_toFinset, List.mem_flatMap] at hp
  rcases hp with ⟨k, _, hw⟩
  have hnd : (((insSort (fun (p₁ p₂ : Val × Val) => valLE p₁.2 p₂.2)
      (wfKeptPairs df statusCol tsCol)).enum).map Prod.fst).Nodup := by
    rw [List.enum_map_fst]
    exact List.nodup_range _
  rw [walkTrans_short (by
    rw [List.length_map]
    exact filter_map_nodup_len_le_one Prod.fst _ hnd k)] at hw
  exact List.not_mem_nil p hw

/-- C10: the grouping key of `detect_workflow` is hard-coded to the column
literally named `invoice_id` (and the timestamp column defaults to
`updated_at`). For every table with no `invoice_id` column that the
function returns on, the rows are grouped by (positionally assigned)
original-index values, each group is a single row, and the returned
transition set is empty — even when another entity-identifier column with
repeated entities exists. -/
theorem c10_no_invoice_id_empty_transitions (df : DataFrame)
    (m : WorkflowModel) (hno : "invoice_id" ∉ df.colNames)
    (hm : detect_workflow df none "updated_at" = Except.ok (some m)) :
    m.transitions = ∅ := by
  have hinv : df.col? "invoice_id" = none := by
    rw [DataFrame.col?, List.find?_eq_none]
    intro c hc hbeq
    exact hno (List.mem_map.mpr ⟨c, hc, beq_iff_eq.mp hbeq⟩)
  simp only [detect_workflow] at hm
  split at hm
  · exact absurd hm (by simp)
  · rename_i statusName hfind
    split at hm
    · exact absurd hm (by simp)
    · rename_i statusCol hcol
      split at hm
      · rw [Except.ok.injEq, Option.some_inj] at hm
        rw [← hm]
      · rename_i tsCol hts
        split at hm
        · rename_i inv hinv2
          rw [hinv] at hinv2
          exact absurd hinv2 (by simp)
        · split at hm
          · exact absurd hm (by simp)
          · rw [Except.ok.injEq, Option.some_inj] at hm
            rw [← hm]
            exact wfTransByIndex_empty df statusCol tsCol

/-- C10 witness: a table whose entity column is called `order_ref` (with a
repeated entity and an open → closed history) still yields an empty
transition set. -/
theorem c10_witness :
    "invoice_id" ∉ dfC10w.colNames ∧ mC10.transitions = ∅ :=
  ⟨by decide,
   c10_no_invoice_id_empty_transitions dfC10w mC10 (by decide)
     (by with_unfolding_all decide)⟩

-- ===================== C8 =====================

/-- C8: `detect_derived_fields` emits no suggestion for a
(numeric column, date pair) whose aligned non-null sample has fewer than
10 rows, regardless of how strong the correlation would be; and an
undefined (NaN) correlation — zero variance on either side — likewise
yields no suggestion rather than an error. -/
theorem c8_derived_fields_min_sample_and_nan (df : DataFrame)
    (num a b : Col)
    (hnum : num ∈ numericCols df)
    (hab : (a, b) ∈ colPairs (dateCols df))
    (hguard : (alignedQ num a b).length < 10 ∨ ¬corrDefined (alignedQ num a b)) :
    ∀ s ∈ detect_derived_fields df (19 / 20),
      ¬(s.field = num.name ∧ s.dateB = b.name ∧ s.dateA = a.name) := by
  intro s hs hnames
  rw [detect_derived_fields] at hs
  split at hs
  · simp at hs
  · rw [List.mem_flatMap] at hs
    rcases hs with ⟨num2, hnum2, hs⟩
    rw [mem_ite_nil_rev] at hs
    rcases hs with ⟨-, hs⟩
    rw [List.mem_flatMap] at hs
    rcases hs with ⟨ab2, hab2, hs⟩
    rw [mem_ite_nil] at hs
    rcases hs with ⟨-, hs⟩
    rw [mem_ite_nil_rev] at hs
    rcases hs with ⟨hlen, hs⟩
    rw [mem_ite_nil] at hs
    rcases hs with ⟨hpass, hs⟩
    rcases List.mem_singleton.mp hs with rfl
    -- identify the columns through their (unique) names
    have hnumcols : num2 ∈ df.cols := (List.mem_filter.mp hnum2).1
    have hacols : a ∈ df.cols :=
      (List.mem_filter.mp (colPairs_mem hab).1).1
    have hbcols : b ∈ df.cols :=
      (List.mem_filter.mp (colPairs_mem hab).2).1
    rcases colPairs_mem hab2 with ⟨hab21, hab22⟩
    have hnum2eq : num2 = num := df.name_inj hnumcols
      ((List.mem_filter.mp hnum).1) hnames.1
    have hb2eq : ab2.2 = b := df.name_inj
      ((List.mem_filter.mp hab22).1) hbcols hnames.2.1
    have ha2eq : ab2.1 = a := df.name_inj
      ((List.mem_filter.mp hab21).1) hacols hnames.2.2
    rw [hnum2eq, ha2eq, hb2eq] at hlen hpass
    rcases hguard with h | h
    · exact hlen h
    · exact h hpass.1

/-- C8 witness: on the 5-row table whose numeric column is exactly the
day difference of its two timestamp columns, no suggestion is emitted for
that (column, pair) — the aligned sample has only 5 < 10 rows. -/
theorem c8_witness :
    (detect_derived_fields dfDer (19 / 20)).all
      (fun s => !(s.field == colDias.name && s.dateB == colUpdated.name &&
        s.dateA == colCreated.name)) = true := by
  have h := c8_derived_fields_min_sample_and_nan dfDer colDias colCreated
    colUpdated (by with_unfolding_all decide) (by with_unfolding_all decide)
    (Or.inl (by with_unfolding_all decide))
  rw [List.all_eq_true]
  intro s hs
  have h2 := h s hs
  rw [Bool.not_eq_true']
  by_contra hcon
  rw [Bool.not_eq_false, Bool.and_eq_true, Bool.and_eq_true, beq_iff_eq,
    beq_iff_eq, beq_iff_eq] at hcon
  exact h2 ⟨hcon.1.1, hcon.1.2, hcon.2⟩

-- ===================== C9 =====================

/-- C9, counterexample: the claim "every column whose lower-cased name
contains the token `total` (and matches no higher-priority rule) is
categorized monetary" is false: the source tests `'_total'`, so the
column name `total` falls through to the dtype rules. -/
theorem c9_counterexample :
    categorize_column "total" Dtype.float64 = "numerica" ∧
      categorize_column "total" Dtype.object = "categorica" ∧
      categorize_column "total" Dtype.float64 ≠ "monetaria" := by
  refine ⟨?_, ?_, ?_⟩ <;> decide

/-- C9 (amended): for every column whose lower-cased name contains
`'_total'` (the token the source actually tests, unlike the claim's
`'total'`) and matches none of the higher-priority rules (`_id` suffix,
temporal tokens, boolean names), `categorize_column` assigns the monetary
category. -/
theorem c9_underscore_total_is_monetary (colName : String) (dtype : Dtype)
    (h1 : strEndsWith (strLower colName) "_id" = false)
    (h2 : strEndsWith (strLower colName) "_at" = false)
    (h3 : ∀ tok ∈ temporalTokens, strContains (strLower colName) tok = false)
    (h4 : (strLower colName == "ativo" || strLower colName == "active" ||
           categorize_boolean none (strLower colName)) = false)
    (h5 : strContains (strLower colName) "_total" = true) :
    categorize_column colName dtype = "monetaria" := by
  have htemp : (temporalTokens.any
      (fun tok => strContains (strLower colName) tok)) = false := by
    rw [List.any_eq_false]
    intro tok htok
    rw [h3 tok htok]
    simp
  have hmon : (monetaryTokens.any
      (fun tok => strContains (strLower colName) tok)) = true := by
    rw [List.any_eq_true]
    exact ⟨"_total", by decide, h5⟩
  simp [categorize_column, h1, h2, htemp, h4, hmon]

/-- C9 witness: the amended theorem applied to the concrete column name
`grand_total`. -/
theorem c9_witness : categorize_column "grand_total" Dtype.float64 = "monetaria" :=
  c9_underscore_total_is_monetary "grand_total" Dtype.float64
    (by decide) (by decide) (by decide) (by decide) (by decide)

end Analise
